import Mathlib

/-
Verification of the IITU bot ingestion-and-retrieval pipeline.

Each definition is a shallow embedding of a function of the repository:
the scraper definitions model src/iitu_bot/scraper/__init__.py, the
knowledge-store definitions model src/iitu_bot/database/__init__.py, the
bot definitions model src/iitu_bot/bot/__init__.py and the processor
definitions model src/iitu_bot/processor/__init__.py.  External
collaborators (the HTTP layer, BeautifulSoup, urljoin, ChromaDB, the
Gemini completion service, the langchain splitter) are modelled as
explicit function parameters or failure oracles; machine floats
(similarity distances) are modelled as rationals.
-/

namespace IITU

/-! ## Definitions: models of the Python string primitives

The Python-level string operations used by the source (`str.strip`,
slicing `[:n]`, the substring operator `in`, `str.endswith`) are modelled
by structurally recursive functions on the character list of a `String`,
so that every definition below evaluates on concrete inputs. -/

/-- Python `str.strip()`: remove leading and trailing whitespace. -/
def pyStrip (s : String) : String :=
  ⟨(((s.data.dropWhile Char.isWhitespace).reverse).dropWhile Char.isWhitespace).reverse⟩

/-- Python slicing `s[:n]` (character count). -/
def pyTake (s : String) (n : Nat) : String :=
  ⟨s.data.take n⟩

/-- Whether `needle` occurs at the head of `hay`. -/
def leadsWith : List Char → List Char → Bool
  | [], _ => true
  | _ :: _, [] => false
  | a :: as, b :: bs => a == b && leadsWith as bs

/-- Python `needle in hay`: `needle` occurs contiguously in `hay`. -/
def hasSeq (needle : List Char) : List Char → Bool
  | [] => leadsWith needle []
  | c :: rest => leadsWith needle (c :: rest) || hasSeq needle rest

/-- Whether `hay` ends with `needle`. -/
def endsWithSeq (needle hay : List Char) : Bool :=
  leadsWith needle.reverse hay.reverse

/-- Scan for the first `//` in a URL. -/
def afterSlashes : List Char → Option (List Char)
  | [] => none
  | '/' :: '/' :: rest => some rest
  | _ :: rest => afterSlashes rest

/-! ## Definitions: scraper (src/iitu_bot/scraper/__init__.py) -/

/-- Model of `urllib.parse.urlparse(url).netloc`: the host part of a URL,
i.e. what follows the first `//` up to the next `/`, `?` or `#`
(empty when the URL has no `//`). -/
def netloc (url : String) : String :=
  match afterSlashes url.data with
  | some rest => ⟨rest.takeWhile (fun c => !(c == '/' || c == '?' || c == '#'))⟩
  | none => ""

/-- Model of `IITUWebScraper.is_valid_url` (scraper lines 25-28):
`'iitu.edu.kz' in urlparse(url).netloc` — a substring test on the host,
hardcoded to the string `iitu.edu.kz` (the configured base URL is not
consulted). -/
def is_valid_url (url : String) : Bool :=
  hasSeq "iitu.edu.kz".data (netloc url).data

/-- Modelled from the spec: "links whose domain matches the configured
domain" — the URL's host is the configured domain itself or a subdomain of
it (dot-separated suffix).  This is the spec-side reading of "domain
matching", to be compared with the code's `is_valid_url`. -/
def domain_matches_spec (domain url : String) : Bool :=
  decide (netloc url = domain) || endsWithSeq ("." ++ domain).data (netloc url).data

/-- Model of `IITUWebScraper.extract_links` (scraper lines 46-53): every anchor href
is resolved against the current page URL with `urljoin` (a collaborator,
passed as a parameter), then kept only if `is_valid_url` holds and the
resolved URL is not in the visited set. -/
def extract_links (urljoin : String → String → String) (hrefs : List String)
    (current_url : String) (visited : List String) : List String :=
  (hrefs.map (fun href => urljoin current_url href)).filter
    (fun u => is_valid_url u && decide (u ∉ visited))

/-- Crawl state: the scraper's `urls_to_visit` (frontier), `visited_urls`,
the urls of the collected `scraped_data` records, and — for stating the
no-re-enqueue property — the ordered log of every URL ever placed on the
frontier (the seed included). -/
structure CrawlState where
  frontier : List String
  visited : List String
  scraped : List String
  log : List String
deriving DecidableEq

/-- The link-enqueueing loop of `scrape_website` (scraper lines 121-124):
each link is appended to the frontier only if it is neither visited nor
already on the (growing) frontier.  The log records exactly the appended
links. -/
def enqueue_links (visited : List String) (links : List String)
    (frontier log : List String) : List String × List String :=
  links.foldl
    (fun fl link =>
      if link ∈ visited ∨ link ∈ fl.1 then fl
      else (fl.1 ++ [link], fl.2 ++ [link]))
    (frontier, log)

/-- Model of `IITUWebScraper.scrape_website` (scraper lines 101-132): BFS loop.
While the frontier is non-empty and fewer than `m` pages are collected:
pop the front URL; skip it if visited; otherwise mark it visited, fetch it
(`g url visited` returns the links of the fetched page, the collaborator
fetch being folded into `g`; a failed fetch is a `g` returning `[]`),
record the page, and enqueue the new links. -/
def scrape_website (g : String → List String → List String) (m : Nat) :
    List String → List String → List String → List String → CrawlState
  | [], visited, scraped, log => ⟨[], visited, scraped, log⟩
  | current_url :: rest, visited, scraped, log =>
    if h : scraped.length < m then
      if current_url ∈ visited then
        scrape_website g m rest visited scraped log
      else
        let visited' := visited ++ [current_url]
        let fl := enqueue_links visited' (g current_url visited') rest log
        scrape_website g m fl.1 visited' (scraped ++ [current_url]) fl.2
    else ⟨current_url :: rest, visited, scraped, log⟩
termination_by frontier _ scraped _ => (m - scraped.length, frontier.length)
decreasing_by
  · simp
    omega
  · simp
    omega

/-- A whole crawl run (scraper lines 101-132 together with the constructor
state of lines 22-23): the frontier starts as `[seed]`, the visited set and
the collected data start empty; the seed counts as enqueued once. -/
def run_scraper (g : String → List String → List String) (m : Nat)
    (seed : String) : CrawlState :=
  scrape_website g m [seed] [] [] [seed]

/-- Fuel-indexed evaluator for the crawl loop, used only to compute
concrete runs of `scrape_website` (which is defined by well-founded
recursion and so does not reduce inside the kernel); `scrape_run_sound`
below ties it to `scrape_website`. -/
def scrape_run (g : String → List String → List String) (m : Nat) :
    Nat → List String → List String → List String → List String → Option CrawlState
  | 0, _, _, _, _ => none
  | _ + 1, [], visited, scraped, log => some ⟨[], visited, scraped, log⟩
  | fuel + 1, current_url :: rest, visited, scraped, log =>
    if scraped.length < m then
      if current_url ∈ visited then
        scrape_run g m fuel rest visited scraped log
      else
        let visited' := visited ++ [current_url]
        let fl := enqueue_links visited' (g current_url visited') rest log
        scrape_run g m fuel fl.1 visited' (scraped ++ [current_url]) fl.2
    else some ⟨current_url :: rest, visited, scraped, log⟩

/-- The crawl-loop invariant: the enqueue log and the frontier and the
collected pages are duplicate-free, every logged URL is still queued or
already visited, no queued URL is visited, and every collected page was
visited. -/
def CrawlInv (st : CrawlState) : Prop :=
  st.log.Nodup ∧ st.frontier.Nodup ∧ st.scraped.Nodup ∧
  (∀ u ∈ st.log, u ∈ st.frontier ∨ u ∈ st.visited) ∧
  (∀ u ∈ st.frontier, u ∉ st.visited) ∧
  (∀ u ∈ st.scraped, u ∈ st.visited)

/-- The fetch-and-extract step of `scrape_page` (scraper lines 55-99)
restricted to what the crawl loop consumes: the `links` field of the page
record, i.e. `extract_links` applied to the page's anchor hrefs (`anchors
url`, a collaborator) and the visited set at fetch time. -/
def page_links (urljoin : String → String → String) (anchors : String → List String) :
    String → List String → List String :=
  fun url visited => extract_links urljoin (anchors url) url visited

/-! ## Definitions: Knowledge Store (src/iitu_bot/database/__init__.py) -/

/-- The metadata dictionary stored with each chunk
(`VectorDatabase.add_chunks`, database lines 61-67).  In the source the
fields are read with `.get(..., default)`; the processor always sets all of
them, so they are modelled as present. -/
structure ChunkMeta where
  source_url : String
  page_title : String
  page_description : String
  chunk_index : Nat
  total_chunks : Nat
deriving DecidableEq

/-- A chunk dictionary as produced by `DataProcessor.extract_all_chunks`
(processor lines 162-169). -/
structure ChunkRecord where
  content : String
  source_url : String
  page_title : String
  page_description : String
  chunk_index : Nat
  total_chunks : Nat
deriving DecidableEq

def metaOf (c : ChunkRecord) : ChunkMeta :=
  ⟨c.source_url, c.page_title, c.page_description, c.chunk_index, c.total_chunks⟩

/-- The `(documents, metadatas)` rows built by `add_chunks` (database lines
49-69): chunks whose stripped content is empty are skipped, all others are
kept in order.  The generated `uuid4` identifiers carry no information
relevant to the claims and are omitted. -/
def keptDocs (chunks : List ChunkRecord) : List (String × ChunkMeta) :=
  (chunks.filter (fun c => !(pyStrip c.content).isEmpty)).map (fun c => (c.content, metaOf c))

/-- Failure oracle for the ChromaDB collaborator: whether
`client.delete_collection` raises, whether `client.create_collection`
raises, and whether the `i`-th `collection.add` batch call raises. -/
structure DBEnv where
  deleteFails : Bool
  createFails : Bool
  addFails : Nat → Bool

/-- Backend state: the contents of the `iitu_knowledge` collection, or
`none` when the collection has been deleted and not recreated. -/
structure ChromaState where
  collection : Option (List (String × ChunkMeta))
deriving DecidableEq

/-- The batched insertion loop of `add_chunks` (database lines 71-87):
rows are written 100 at a time; a raising `collection.add` propagates
(there is no try/except around it), leaving the rows already written in
place.  `i` counts the batch calls made so far. -/
def addBatches (env : DBEnv) (docs : List (String × ChunkMeta)) (i : Nat)
    (st : ChromaState) : ChromaState × Option String :=
  if h : docs = [] then (st, none)
  else
    match st.collection with
    | none => (st, some "collection does not exist")
    | some es =>
      if env.addFails i then (st, some "add failed")
      else addBatches env (docs.drop 100) (i + 1) ⟨some (es ++ docs.take 100)⟩
termination_by docs.length
decreasing_by
  have hp : 0 < docs.length := List.length_pos.mpr h
  simp
  omega

/-- Model of `VectorDatabase.add_chunks` (database lines 39-89): empty input and
all-empty content return without touching the backend; otherwise the rows
are inserted in batches. -/
def add_chunks (env : DBEnv) (chunks : List ChunkRecord) (st : ChromaState) :
    ChromaState × Option String :=
  if chunks = [] then (st, none)
  else
    let docs := keptDocs chunks
    if docs = [] then (st, none)
    else addBatches env docs 0 st

/-- Model of `VectorDatabase.clear_collection` (database lines 133-144): delete then
recreate the collection, with every exception caught and swallowed.  A
failing delete leaves the old contents in place; a delete that succeeds
followed by a failing create leaves no collection behind. -/
def clear_collection (env : DBEnv) (st : ChromaState) : ChromaState :=
  if env.deleteFails then st
  else if env.createFails then ⟨none⟩
  else ⟨some []⟩

/-- Model of `VectorDatabase.build_knowledge_base` (database lines 146-158):
clear, then add all chunks.  The final `get_collection_info` call catches
its own errors and has no state effect, so it is not modelled. -/
def build_knowledge_base (env : DBEnv) (processed_chunks : List ChunkRecord)
    (st : ChromaState) : ChromaState × Option String :=
  add_chunks env processed_chunks (clear_collection env st)

/-- No backend call fails at all. -/
def NoFailures (env : DBEnv) : Prop :=
  env.deleteFails = false ∧ env.createFails = false ∧ ∀ j, env.addFails j = false

/-- An environment in which every `collection.add` call raises, the
clear itself succeeding. -/
def addAlwaysFailsEnv : DBEnv := ⟨false, false, fun _ => true⟩

/-- A store holding one prior entry, and a fresh non-empty chunk to load. -/
def oldMeta : ChunkMeta := ⟨"https://iitu.edu.kz/old", "Old page", "", 0, 1⟩

def oldState : ChromaState := ⟨some [("old fact", oldMeta)]⟩

def newChunk : ChunkRecord :=
  ⟨"new fact", "https://iitu.edu.kz/new", "New page", "", 0, 1⟩

/-- A search hit as assembled by `VectorDatabase.search` (database lines
100-109) from the columnar ChromaDB response; `distance` is a float in the
source, modelled as a rational. -/
structure SearchResult where
  content : String
  metadata : ChunkMeta
  distance : ℚ
deriving DecidableEq

/-- Model of `VectorDatabase.search` (database lines 91-116): query the backend
(`backend query n` is the collaborator `collection.query`, returning `none`
when it raises); any failure is caught and degraded to the empty result
list. -/
def search (backend : String → Nat → Option (List SearchResult))
    (query : String) (n_results : Nat) : List SearchResult :=
  match backend query n_results with
  | some rs => rs
  | none => []

/-- The default of the `threshold` parameter of `is_relevant`
(database line 160): `0.5`. -/
def is_relevant_default_threshold : ℚ := 1 / 2

/-- Model of `VectorDatabase.is_relevant` (database lines 160-170): search with
`n_results=1`; with no hits return `False`; otherwise compare
`similarity = 1 - distance` of the top hit against the threshold. -/
def is_relevant (backend : String → Nat → Option (List SearchResult))
    (query : String) (threshold : ℚ) : Bool :=
  match search backend query 1 with
  | [] => false
  | r :: _ => decide (threshold ≤ 1 - r.distance)

/-! ## Definitions: Telegram bot (src/iitu_bot/bot/__init__.py) -/

/-- One entry of a session's rolling context window
(`process_user_query`, bot lines 180-195). -/
structure CtxEntry where
  query : String
  response : String
  source : String
deriving DecidableEq

/-- A user session (`user_sessions[...]`, bot lines 80-84, 151-155). -/
structure Session where
  retry_count : Nat
  last_query : Option String
  context : List CtxEntry
deriving DecidableEq

/-- The session value created by `handle_start` and by the lazy
initialisation in `handle_text`. -/
def initial_session : Session := ⟨0, none, []⟩

/-- The bot's collaborators: the vector-store query backend (as in
`search`) and the Gemini completion service `gen` — one function
`prompt ↦ response text`, `none` when `generate_content` raises.  All
three call sites (`generate_rag_response`, `generate_general_response`,
`refine_query`) go through the same model instance. -/
structure BotEnv where
  backend : String → Nat → Option (List SearchResult)
  gen : String → Option String

/-- The RAG prompt of `generate_rag_response` (bot lines 219-236),
abbreviated to its skeleton: a fixed instruction header, the retrieved
context block and the user query. -/
def rag_prompt (context query : String) : String :=
  "Ты — Ассистент для студентов и абитуриентов IITU. Используй ТОЛЬКО информацию из предоставленного контекста.\nКонтекст из базы знаний IITU:\n"
    ++ context ++ "\nВопрос пользователя: " ++ query ++ "\nОтвет:"

/-- The generic-path prompt of `generate_general_response`
(bot lines 247-260), abbreviated to its skeleton. -/
def general_prompt (query : String) : String :=
  "Ты — Ассистент для студентов и абитуриентов IITU. Пользователь задал вопрос, который не связан с базой знаний университета.\nВопрос пользователя: "
    ++ query ++ "\nОтвет:"

/-- The refinement prompt of `refine_query` (bot lines 277-292),
abbreviated to its skeleton. -/
def refine_prompt (original_query context_text : String) : String :=
  "Переформулируй пользовательский запрос, чтобы получить более точный ответ из базы знаний IITU.\nИсходный запрос: "
    ++ original_query ++ "\nКонтекст предыдущих взаимодействий:\n"
    ++ context_text ++ "\nПереформулированный запрос:"

/-- Fallback reply of `generate_rag_response` (bot line 243). -/
def rag_error_reply : String :=
  "Извините, не удалось сформировать ответ на основе доступной информации."

/-- Fallback reply of `generate_general_response` (bot line 267). -/
def general_error_reply : String :=
  "Извините, я могу помочь только с вопросами, связанными с IITU. Обратитесь к официальному сайту iitu.edu.kz за дополнительной информацией."

/-- Model of `generate_rag_response` (bot lines 207-243): build the context block
with per-chunk source attribution, call the completion service, strip the
reply; on failure return the fixed apology. -/
def generate_rag_response (env : BotEnv) (query : String)
    (search_results : List SearchResult) : String :=
  let context := String.intercalate "\n\n---\n\n"
    (search_results.map fun r =>
      r.content ++ "\n(Источник: " ++ r.metadata.page_title ++ ")")
  match env.gen (rag_prompt context query) with
  | some t => pyStrip t
  | none => rag_error_reply

/-- Model of `generate_general_response` (bot lines 245-267). -/
def generate_general_response (env : BotEnv) (query : String) : String :=
  match env.gen (general_prompt query) with
  | some t => pyStrip t
  | none => general_error_reply

/-- Model of `refine_query` (bot lines 269-301): format the last 3 context entries
(responses truncated to 200 characters), call the completion service; on
failure fall back to the original query. -/
def refine_query (env : BotEnv) (original_query : String)
    (context : List CtxEntry) : String :=
  let context_text := String.join ((context.drop (context.length - 3)).map
    fun item =>
      "Запрос: " ++ item.query ++ "\nОтвет: " ++ pyTake item.response 200 ++ "...\n\n")
  match env.gen (refine_prompt original_query context_text) with
  | some t => pyStrip t
  | none => original_query

/-- The context-window cap of `process_user_query` (bot lines 197-199):
`if len(context) > 5: context = context[-5:]`. -/
def trim_context (c : List CtxEntry) : List CtxEntry :=
  if 5 < c.length then c.drop (c.length - 5) else c

/-- Result of one `process_user_query` call: the updated session, the
reply text, which path was taken (the `source` string recorded in the
context entry), and how many completion-service calls were made. -/
structure QueryResult where
  session : Session
  response : String
  source : String
  ai_calls : Nat
deriving DecidableEq

/-- Model of `process_user_query` (bot lines 163-205): search with `n_results=5`;
if the results are non-empty and `is_relevant(query)` (default threshold)
holds, answer on the RAG path, else on the generic path; either way append
a `(query, response, source)` record to the session context and cap it at
the 5 most recent entries.  The `is_refined` flag is accepted and, as in
the source, never used. -/
def process_user_query (env : BotEnv) (s : Session) (query : String)
    (is_refined : Bool) : QueryResult :=
  let search_results := search env.backend query 5
  if !search_results.isEmpty
      && is_relevant env.backend query is_relevant_default_threshold then
    let response := generate_rag_response env query search_results
    ⟨{ s with context := trim_context (s.context ++ [⟨query, response, "rag"⟩]) },
      response, "rag", 1⟩
  else
    let response := generate_general_response env query
    ⟨{ s with context := trim_context (s.context ++ [⟨query, response, "general"⟩]) },
      response, "general", 1⟩

/-- Model of `handle_text` (bot lines 140-161): strip the message; an empty query is
rejected without touching (or creating) the session; otherwise the session
is created if absent, `retry_count` is reset to 0, `last_query` is set, and
the query is processed.  The second component counts completion-service
calls. -/
def handle_text (env : BotEnv) (session : Option Session) (text : String) :
    Option Session × Nat :=
  let user_query := pyStrip text
  if user_query.isEmpty then (session, 0)
  else
    let s := session.getD initial_session
    let r := process_user_query env
      { s with retry_count := 0, last_query := some user_query } user_query false
    (some r.session, r.ai_calls)

/-- The four observable outcomes of `handle_return` (bot lines 112-138),
one per early-return branch plus the success path; each corresponds to a
distinct reply message in the source. -/
inductive ReturnOutcome where
  | no_session
  | no_last_query
  | max_retries_reached
  | answered
deriving DecidableEq

/-- Model of `handle_return` (bot lines 112-138): reject when there is no session,
when `last_query` is falsy (None or empty), or when `retry_count` has
reached `MAX_RETRIES` — each rejection leaves the session untouched and
makes no completion-service call.  Otherwise increment `retry_count`,
refine the last query (one completion call) and process the refined
query. -/
def handle_return (env : BotEnv) (max_retries : Nat) (session : Option Session) :
    Option Session × ReturnOutcome × Nat :=
  match session with
  | none => (none, .no_session, 0)
  | some s =>
    match s.last_query with
    | none => (some s, .no_last_query, 0)
    | some q =>
      if q.isEmpty then (some s, .no_last_query, 0)
      else if max_retries ≤ s.retry_count then (some s, .max_retries_reached, 0)
      else
        let s1 : Session := { s with retry_count := s.retry_count + 1 }
        let refined := refine_query env q s1.context
        let r := process_user_query env s1 refined true
        (some r.session, .answered, 1 + r.ai_calls)

/-- Sequential processing of a list of text messages by one user. -/
def run_texts (env : BotEnv) : Option Session → List String → Option Session
  | s, [] => s
  | s, t :: ts => run_texts env (handle_text env s t).1 ts

/-- The session states reachable for one user: the fresh session created by
`handle_start` (or lazily by `handle_text`), and anything produced from a
reachable state by a text message or a `/return` command, under any
behaviour of the collaborators.  `max_retries` (`Config.MAX_RETRIES`) is
fixed for the process lifetime. -/
inductive Reachable (max_retries : Nat) : Session → Prop where
  | start : Reachable max_retries initial_session
  | text_step (env : BotEnv) (s : Session) (t : String) (s' : Session) (n : Nat)
      (h : Reachable max_retries s)
      (hs : handle_text env (some s) t = (some s', n)) :
      Reachable max_retries s'
  | return_step (env : BotEnv) (s s' : Session) (o : ReturnOutcome) (n : Nat)
      (h : Reachable max_retries s)
      (hs : handle_return env max_retries (some s) = (some s', o, n)) :
      Reachable max_retries s'

/-! ## Definitions: processor (src/iitu_bot/processor/__init__.py) -/

/-- A page dictionary as produced by `scrape_page` (scraper lines 77-99)
and then decorated by the processor.  Keys that a raw scraped page does not
carry (`original_content`, `improved_content`, `chunks`, `chunk_count`,
`processed`, `processing_error`) are optional; `error` is set instead of
content on a failed fetch. -/
structure PageRecord where
  url : String
  title : String
  description : String
  content : String
  links : List String
  error : Option String
  original_content : Option String
  improved_content : Option String
  chunks : Option (List String)
  chunk_count : Option Nat
  processed : Bool
  processing_error : Option String
deriving DecidableEq

/-- The improvement prompt of `improve_text_with_ai` (processor lines
33-49), abbreviated to its skeleton; the text is truncated to 2000
characters before it enters the prompt. -/
def improve_prompt (page_title text : String) : String :=
  "Ты — эксперт по обработке текста для университета IITU. Улучши следующий текст:\nЗаголовок страницы: "
    ++ page_title ++ "\nТекст: " ++ text
    ++ "\nВерни только улучшенный текст без дополнительных комментариев."

/-- Model of `DataProcessor.improve_text_with_ai` (processor lines 28-58):
blank text is returned as is; otherwise the completion service is called on
the truncated text and the stripped reply is returned; on any failure the
original text is returned unchanged. -/
def improve_text_with_ai (gen : String → Option String) (text : String)
    (page_title : String) : String :=
  if (pyStrip text).isEmpty then text
  else
    match gen (improve_prompt page_title (pyTake text 2000)) with
    | some t => pyStrip t
    | none => text

/-- Model of `DataProcessor.create_chunks` (processor lines 60-67): blank text gives
no chunks; otherwise the langchain splitter (a collaborator, passed as
`splitter`) is applied. -/
def create_chunks (splitter : String → List String) (text : String) : List String :=
  if (pyStrip text).isEmpty then [] else splitter text

/-- Model of `DataProcessor.process_page_data` (processor lines 69-97): a page
carrying an `error` key is returned untouched; otherwise the content is
AI-improved, chunked, and the page is marked `processed`. -/
def process_page_data (gen : String → Option String)
    (splitter : String → List String) (page_data : PageRecord) : PageRecord :=
  if page_data.error.isSome then page_data
  else
    let original_content := page_data.content
    let improved_content := improve_text_with_ai gen original_content page_data.title
    let chunks := create_chunks splitter improved_content
    { page_data with
        original_content := some original_content
        improved_content := some improved_content
        chunks := some chunks
        chunk_count := some chunks.length
        processed := true }

/-- Model of `DataProcessor.process_all_data` (processor lines 99-120): process each
page in order; when processing a page raises (`fail` is the oracle for
that), the raw page is appended with a `processing_error` field set
instead. -/
def process_all_data (gen : String → Option String)
    (splitter : String → List String) (fail : PageRecord → Option String)
    (scraped_data : List PageRecord) : List PageRecord :=
  scraped_data.map fun page_data =>
    match fail page_data with
    | none => process_page_data gen splitter page_data
    | some e => { page_data with processing_error := some e }

/-- The per-page body of `DataProcessor.extract_all_chunks` (processor
lines 153-170): pages not marked `processed`, or without a `chunks` key,
contribute nothing; otherwise each chunk becomes a `ChunkRecord` with its
0-based index and the page's chunk count. -/
def page_chunks (page_data : PageRecord) : List ChunkRecord :=
  match page_data.processed, page_data.chunks with
  | true, some cs =>
    cs.enum.map fun ic =>
      ⟨ic.2, page_data.url, page_data.title, page_data.description, ic.1, cs.length⟩
  | _, _ => []

/-- Model of `DataProcessor.extract_all_chunks` (processor lines 149-173). -/
def extract_all_chunks (processed_data : List PageRecord) : List ChunkRecord :=
  (processed_data.map page_chunks).flatten

/-- A raw page record as produced by the scraper: none of the
processor-added keys are present. -/
def IsRawPage (p : PageRecord) : Prop :=
  p.processed = false ∧ p.chunks = none ∧ p.improved_content = none

/-! ## Definitions: concrete instances used by witnesses and counterexamples -/

def seedUrl : String := "https://iitu.edu.kz"

/-- A host that contains `iitu.edu.kz` as a substring but is neither the
IITU domain nor one of its subdomains. -/
def evilUrl : String := "https://iitu.edu.kz.evil.com/phish"

/-- A one-page site: the seed page carries a single (absolute) anchor to
`evilUrl`. -/
def evilAnchors : String → List String := fun u => if u = seedUrl then [evilUrl] else []

/-- Model of `urljoin` restricted to absolute hrefs, where it returns the href
itself. -/
def absUrljoin : String → String → String := fun _ href => href

/-- A raw page record whose fetch failed (scraper lines 89-99). -/
def errPage : PageRecord :=
  ⟨"https://iitu.edu.kz/404", "", "", "", [], some "HTTP 404",
    none, none, none, none, false, none⟩

/-! ## Theorems: crawler and knowledge-store helper lemmas -/

theorem scrape_nil (g m v s l) : scrape_website g m [] v s l = ⟨[], v, s, l⟩ := by
  simp [scrape_website]

theorem scrape_stop (g m u rest v s l) (hm : ¬ s.length < m) :
    scrape_website g m (u :: rest) v s l = ⟨u :: rest, v, s, l⟩ := by
  rw [scrape_website]
  simp [hm]

theorem scrape_skip (g m u rest v s l) (hm : s.length < m) (hv : u ∈ v) :
    scrape_website g m (u :: rest) v s l = scrape_website g m rest v s l := by
  rw [scrape_website]
  simp [hm, hv]

theorem scrape_visit (g m u rest v s l) (hm : s.length < m) (hv : u ∉ v) :
    scrape_website g m (u :: rest) v s l =
      scrape_website g m (enqueue_links (v ++ [u]) (g u (v ++ [u])) rest l).1
        (v ++ [u]) (s ++ [u]) (enqueue_links (v ++ [u]) (g u (v ++ [u])) rest l).2 := by
  rw [scrape_website]
  simp [hm, hv]

theorem enqueue_links_cons (visited link : _) (ls fr lo : List String) :
    enqueue_links visited (link :: ls) fr lo =
      if link ∈ visited ∨ link ∈ fr then enqueue_links visited ls fr lo
      else enqueue_links visited ls (fr ++ [link]) (lo ++ [link]) := by
  by_cases h : link ∈ visited ∨ link ∈ fr <;> simp [enqueue_links, h]

/-- Characterisation of the enqueue loop: it appends the same block of new
URLs `extra` to the frontier and to the log; every appended URL comes from
the page's links, was not visited and was not already queued; and a
duplicate-free frontier stays duplicate-free. -/
theorem enqueue_links_spec (visited : List String) (links : List String) :
    ∀ (frontier log : List String), ∃ extra : List String,
      enqueue_links visited links frontier log = (frontier ++ extra, log ++ extra) ∧
      (∀ x ∈ extra, x ∈ links ∧ x ∉ visited ∧ x ∉ frontier) ∧
      (frontier.Nodup → (frontier ++ extra).Nodup) := by
  induction links with
  | nil =>
    intro fr lo
    exact ⟨[], by simp [enqueue_links], by simp, by simp⟩
  | cons link ls ih =>
    intro fr lo
    by_cases h : link ∈ visited ∨ link ∈ fr
    · obtain ⟨extra, heq, hmem, hnd⟩ := ih fr lo
      refine ⟨extra, ?_, ?_, hnd⟩
      · rw [enqueue_links_cons, if_pos h, heq]
      · intro x hx
        obtain ⟨h1, h2, h3⟩ := hmem x hx
        exact ⟨List.mem_cons_of_mem _ h1, h2, h3⟩
    · push_neg at h
      obtain ⟨hlv, hlf⟩ := h
      obtain ⟨extra, heq, hmem, hnd⟩ := ih (fr ++ [link]) (lo ++ [link])
      refine ⟨link :: extra, ?_, ?_, ?_⟩
      · rw [enqueue_links_cons, if_neg (by simp [hlv, hlf]), heq]
        simp
      · intro x hx
        rcases List.mem_cons.1 hx with rfl | hx'
        · exact ⟨List.mem_cons_self _ _, hlv, hlf⟩
        · obtain ⟨h1, h2, h3⟩ := hmem x hx'
          refine ⟨List.mem_cons_of_mem _ h1, h2, fun hxf => h3 ?_⟩
          exact List.mem_append_left _ hxf
      · intro hfr
        have hfr' : (fr ++ [link]).Nodup := by
          simp [List.nodup_append, hfr, hlf]
        simpa using hnd hfr'


theorem crawlInv_visit (u : String) (rest v s l : List String) (links : List String)
    (h : CrawlInv ⟨u :: rest, v, s, l⟩) (hv : u ∉ v) :
    CrawlInv ⟨(enqueue_links (v ++ [u]) links rest l).1, v ++ [u],
      s ++ [u], (enqueue_links (v ++ [u]) links rest l).2⟩ := by
  obtain ⟨hlogN, hfrN, hscrN, hlogM, hfrV, hscrV⟩ := h
  obtain ⟨extra, heq, hmem, hnd⟩ := enqueue_links_spec (v ++ [u]) links rest l
  have h1 : (enqueue_links (v ++ [u]) links rest l).1 = rest ++ extra := by rw [heq]
  have h2 : (enqueue_links (v ++ [u]) links rest l).2 = l ++ extra := by rw [heq]
  have hrestN : rest.Nodup := (List.nodup_cons.1 hfrN).2
  have hurest : u ∉ rest := (List.nodup_cons.1 hfrN).1
  rw [h1, h2]
  refine ⟨?_, hnd hrestN, ?_, ?_, ?_, ?_⟩
  · -- the log stays duplicate-free
    have hextraN : extra.Nodup := (List.nodup_append.1 (hnd hrestN)).2.1
    refine List.Nodup.append hlogN hextraN ?_
    intro x hxl hxe
    obtain ⟨_, hxv, hxr⟩ := hmem x hxe
    have hxvu : x ∉ v ∧ x ≠ u := by
      constructor
      · exact fun hx => hxv (List.mem_append_left _ hx)
      · rintro rfl
        exact hxv (List.mem_append_right _ (List.mem_singleton_self _))
    rcases hlogM x hxl with hfr | hvv
    · rcases List.mem_cons.1 hfr with rfl | hr
      · exact hxvu.2 rfl
      · exact hxr hr
    · exact hxvu.1 hvv
  · -- collected pages stay duplicate-free
    have hus : u ∉ s := fun hu => hv (hscrV u hu)
    simp [List.nodup_append, hscrN, hus]
  · -- every logged URL is queued or visited
    intro x hx
    rcases List.mem_append.1 hx with hxl | hxe
    · rcases hlogM x hxl with hfr | hvv
      · rcases List.mem_cons.1 hfr with rfl | hr
        · exact Or.inr (List.mem_append_right _ (List.mem_singleton_self _))
        · exact Or.inl (List.mem_append_left _ hr)
      · exact Or.inr (List.mem_append_left _ hvv)
    · exact Or.inl (List.mem_append_right _ hxe)
  · -- no queued URL is visited
    intro x hx
    rcases List.mem_append.1 hx with hxr | hxe
    · intro hxv
      rcases List.mem_append.1 hxv with hxv' | hxu
      · exact hfrV x (List.mem_cons_of_mem _ hxr) hxv'
      · exact hurest (List.mem_singleton.1 hxu ▸ hxr)
    · exact (hmem x hxe).2.1
  · -- every collected page is visited
    intro x hx
    rcases List.mem_append.1 hx with hxs | hxu
    · exact List.mem_append_left _ (hscrV x hxs)
    · exact List.mem_append_right _ hxu

/-- The loop preserves the crawl invariant. -/
theorem scrape_website_inv (g : String → List String → List String) (m : Nat) :
    ∀ (fr v s l : List String), CrawlInv ⟨fr, v, s, l⟩ →
      CrawlInv (scrape_website g m fr v s l)
  | [], v, s, l, h => by rw [scrape_nil]; exact h
  | u :: rest, v, s, l, h => by
    by_cases hm : s.length < m
    · by_cases hv : u ∈ v
      · exact absurd hv (h.2.2.2.2.1 u (List.mem_cons_self _ _))
      · rw [scrape_visit g m u rest v s l hm hv]
        exact scrape_website_inv g m _ _ _ _ (crawlInv_visit u rest v s l _ h hv)
    · rw [scrape_stop g m u rest v s l hm]
      exact h
termination_by fr _ s _ => (m - s.length, fr.length)
decreasing_by
  all_goals simp
  all_goals first
    | exact Prod.Lex.right _ (by omega)
    | exact Prod.Lex.left _ _ (by omega)

/-- The visited set never shrinks: whatever state the loop is entered with,
its visited set survives into the final state. -/
theorem scrape_website_visited_mono (g : String → List String → List String) (m : Nat) :
    ∀ (fr v s l : List String), v ⊆ (scrape_website g m fr v s l).visited
  | [], v, s, l => by
    rw [scrape_nil]
    exact fun _ hx => hx
  | u :: rest, v, s, l => by
    by_cases hm : s.length < m
    · by_cases hv : u ∈ v
      · rw [scrape_skip g m u rest v s l hm hv]
        exact scrape_website_visited_mono g m rest v s l
      · rw [scrape_visit g m u rest v s l hm hv]
        exact fun x hx =>
          scrape_website_visited_mono g m _ _ _ _ (List.mem_append_left _ hx)
    · rw [scrape_stop g m u rest v s l hm]
      exact fun _ hx => hx
termination_by fr _ s _ => (m - s.length, fr.length)
decreasing_by
  all_goals simp
  all_goals first
    | exact Prod.Lex.right _ (by omega)
    | exact Prod.Lex.left _ _ (by omega)

/-- The loop never lets the collected-page list grow beyond `m`. -/
theorem scrape_website_scraped_le (g : String → List String → List String) (m : Nat) :
    ∀ (fr v s l : List String), s.length ≤ m →
      (scrape_website g m fr v s l).scraped.length ≤ m
  | [], v, s, l, h => by rw [scrape_nil]; exact h
  | u :: rest, v, s, l, h => by
    by_cases hm : s.length < m
    · by_cases hv : u ∈ v
      · rw [scrape_skip g m u rest v s l hm hv]
        exact scrape_website_scraped_le g m rest v s l h
      · rw [scrape_visit g m u rest v s l hm hv]
        exact scrape_website_scraped_le g m _ _ _ _ (by simp; omega)
    · rw [scrape_stop g m u rest v s l hm]
      exact h
termination_by fr _ s _ => (m - s.length, fr.length)
decreasing_by
  all_goals simp
  all_goals first
    | exact Prod.Lex.right _ (by omega)
    | exact Prod.Lex.left _ _ (by omega)

/-- Any property that holds of all links produced by the fetch function and
of the initial log holds of every URL ever enqueued. -/
theorem scrape_website_log_pred (g : String → List String → List String) (m : Nat)
    (Q : String → Prop) (hg : ∀ url vis x, x ∈ g url vis → Q x) :
    ∀ (fr v s l : List String), (∀ x ∈ l, Q x) →
      ∀ x ∈ (scrape_website g m fr v s l).log, Q x
  | [], v, s, l, h => by rw [scrape_nil]; exact h
  | u :: rest, v, s, l, h => by
    by_cases hm : s.length < m
    · by_cases hv : u ∈ v
      · rw [scrape_skip g m u rest v s l hm hv]
        exact scrape_website_log_pred g m Q hg rest v s l h
      · rw [scrape_visit g m u rest v s l hm hv]
        refine scrape_website_log_pred g m Q hg _ _ _ _ ?_
        obtain ⟨extra, heq, hmem, -⟩ :=
          enqueue_links_spec (v ++ [u]) (g u (v ++ [u])) rest l
        rw [heq]
        intro x hx
        rcases List.mem_append.1 hx with hxl | hxe
        · exact h x hxl
        · exact hg u (v ++ [u]) x (hmem x hxe).1
    · rw [scrape_stop g m u rest v s l hm]
      exact h
termination_by fr _ s _ => (m - s.length, fr.length)
decreasing_by
  all_goals simp
  all_goals first
    | exact Prod.Lex.right _ (by omega)
    | exact Prod.Lex.left _ _ (by omega)

theorem run_scraper_inv (g : String → List String → List String) (m : Nat)
    (seed : String) : CrawlInv (run_scraper g m seed) :=
  scrape_website_inv g m [seed] [] [] [seed] (by simp [CrawlInv])

theorem addBatches_nil (env i st) : addBatches env [] i st = (st, none) := by
  simp [addBatches]

theorem addBatches_fail (env docs i es) (h : docs ≠ [])
    (hf : env.addFails i = true) :
    addBatches env docs i ⟨some es⟩ = (⟨some es⟩, some "add failed") := by
  rw [addBatches]
  simp [h, hf]

theorem addBatches_step (env docs i es) (h : docs ≠ [])
    (hf : env.addFails i = false) :
    addBatches env docs i ⟨some es⟩ =
      addBatches env (docs.drop 100) (i + 1) ⟨some (es ++ docs.take 100)⟩ := by
  rw [addBatches]
  simp [h, hf]

/-- When no batch call fails, the insertion loop appends all rows. -/
theorem addBatches_ok (env : DBEnv) (hok : ∀ j, env.addFails j = false) :
    ∀ (docs : List (String × ChunkMeta)) (i : Nat) (es : List (String × ChunkMeta)),
      addBatches env docs i ⟨some es⟩ = (⟨some (es ++ docs)⟩, none)
  | docs, i, es => by
    by_cases h : docs = []
    · subst h
      simp [addBatches_nil]
    · rw [addBatches_step env docs i es h (hok i),
        addBatches_ok env hok (docs.drop 100) (i + 1) (es ++ docs.take 100)]
      simp
termination_by docs _ _ => docs.length
decreasing_by
  have hp : 0 < docs.length := List.length_pos.mpr h
  simp
  omega

/-- Whatever happens, the insertion loop leaves the collection holding the
previous rows plus some prefix of whole batches of the new rows. -/
theorem addBatches_front (env : DBEnv) :
    ∀ (docs : List (String × ChunkMeta)) (i : Nat) (es : List (String × ChunkMeta)),
      ∃ n, ((addBatches env docs i ⟨some es⟩).1).collection = some (es ++ docs.take n)
  | docs, i, es => by
    by_cases h : docs = []
    · exact ⟨0, by simp [h, addBatches_nil]⟩
    · by_cases hf : env.addFails i = true
      · exact ⟨0, by simp [addBatches_fail env docs i es h hf]⟩
      · rw [addBatches_step env docs i es h (Bool.not_eq_true _ ▸ hf)]
        obtain ⟨n, hn⟩ :=
          addBatches_front env (docs.drop 100) (i + 1) (es ++ docs.take 100)
        refine ⟨100 + n, ?_⟩
        rw [hn, List.take_add]
        simp
termination_by docs _ _ => docs.length
decreasing_by
  have hp : 0 < docs.length := List.length_pos.mpr h
  simp
  omega


/-! ## Theorems: bot helper lemmas -/

theorem trim_context_eq_drop (c : List CtxEntry) :
    trim_context c = c.drop (c.length - 5) := by
  unfold trim_context
  split
  · rfl
  · next h => rw [Nat.sub_eq_zero_of_le (by omega), List.drop_zero]

theorem trim_context_length (c : List CtxEntry) : (trim_context c).length ≤ 5 := by
  unfold trim_context
  split
  · simp
    omega
  · omega

theorem process_user_query_retry (env : BotEnv) (s : Session) (q : String) (b : Bool) :
    (process_user_query env s q b).session.retry_count = s.retry_count := by
  unfold process_user_query
  dsimp only
  split <;> rfl

theorem process_user_query_last (env : BotEnv) (s : Session) (q : String) (b : Bool) :
    (process_user_query env s q b).session.last_query = s.last_query := by
  unfold process_user_query
  dsimp only
  split <;> rfl

theorem process_user_query_calls (env : BotEnv) (s : Session) (q : String) (b : Bool) :
    (process_user_query env s q b).ai_calls = 1 := by
  unfold process_user_query
  dsimp only
  split <;> rfl

/-- Each processed query appends exactly one context entry, recording the
query itself, and then caps the window. -/
theorem process_user_query_entry (env : BotEnv) (s : Session) (q : String) (b : Bool) :
    ∃ e : CtxEntry, e.query = q ∧
      (e.source = "rag" ∨ e.source = "general") ∧
      (process_user_query env s q b).session =
        { s with context := trim_context (s.context ++ [e]) } := by
  unfold process_user_query
  dsimp only
  split
  · exact ⟨_, rfl, Or.inl rfl, rfl⟩
  · exact ⟨_, rfl, Or.inr rfl, rfl⟩

theorem process_user_query_source_rag_iff (env : BotEnv) (s : Session) (q : String) (b : Bool) :
    (process_user_query env s q b).source = "rag" ↔
      (search env.backend q 5 ≠ [] ∧
        is_relevant env.backend q is_relevant_default_threshold = true) := by
  unfold process_user_query
  dsimp only
  split
  · next hc =>
    rw [Bool.and_eq_true, Bool.not_eq_true'] at hc
    refine ⟨fun _ => ⟨?_, hc.2⟩, fun _ => rfl⟩
    cases hs : search env.backend q 5 with
    | nil => rw [hs] at hc; simp at hc
    | cons a l => simp
  · next hc =>
    rw [Bool.and_eq_true, Bool.not_eq_true'] at hc
    constructor
    · intro h
      have h' : ("general" : String) = "rag" := h
      exact absurd h' (by decide)
    · rintro ⟨hne, hrel⟩
      exact absurd ⟨by simp [List.isEmpty_iff, hne], hrel⟩ hc

theorem process_user_query_source_general (env : BotEnv) (s : Session) (q : String) (b : Bool) :
    (process_user_query env s q b).source = "rag" ∨
      (process_user_query env s q b).source = "general" := by
  unfold process_user_query
  dsimp only
  split
  · exact Or.inl rfl
  · exact Or.inr rfl

theorem handle_text_eq (env : BotEnv) (s : Session) (t : String)
    (h : (pyStrip t).isEmpty = false) :
    handle_text env (some s) t =
      (some (process_user_query env
          { s with retry_count := 0, last_query := some (pyStrip t) } (pyStrip t) false).session,
        (process_user_query env
          { s with retry_count := 0, last_query := some (pyStrip t) } (pyStrip t) false).ai_calls) := by
  unfold handle_text
  simp [h]

/-- One text-message step, with the context entry it records. -/
theorem handle_text_context (env : BotEnv) (s : Session) (t : String)
    (h : (pyStrip t).isEmpty = false) :
    ∃ (e : CtxEntry) (s' : Session), e.query = pyStrip t ∧
      handle_text env (some s) t = (some s', 1) ∧
      s'.retry_count = 0 ∧ s'.last_query = some (pyStrip t) ∧
      s'.context = trim_context (s.context ++ [e]) := by
  obtain ⟨e, heq, -, hsess⟩ := process_user_query_entry env
    { s with retry_count := 0, last_query := some (pyStrip t) } (pyStrip t) false
  refine ⟨e, (process_user_query env
      { s with retry_count := 0, last_query := some (pyStrip t) } (pyStrip t) false).session,
    heq, ?_, ?_, ?_, ?_⟩
  · rw [handle_text_eq env s t h, process_user_query_calls]
  · rw [process_user_query_retry]
  · rw [process_user_query_last]
  · rw [hsess]

theorem handle_return_none (env : BotEnv) (m : Nat) :
    handle_return env m none = (none, .no_session, 0) := rfl

theorem handle_return_no_query (env : BotEnv) (m : Nat) (s : Session)
    (h : s.last_query = none) :
    handle_return env m (some s) = (some s, .no_last_query, 0) := by
  simp [handle_return, h]

theorem handle_return_empty_query (env : BotEnv) (m : Nat) (s : Session) (q : String)
    (h : s.last_query = some q) (he : q.isEmpty = true) :
    handle_return env m (some s) = (some s, .no_last_query, 0) := by
  simp [handle_return, h, he]

theorem handle_return_maxed (env : BotEnv) (m : Nat) (s : Session) (q : String)
    (h : s.last_query = some q) (he : q.isEmpty = false) (hm : m ≤ s.retry_count) :
    handle_return env m (some s) = (some s, .max_retries_reached, 0) := by
  simp [handle_return, h, he, hm]

theorem handle_return_go (env : BotEnv) (m : Nat) (s : Session) (q : String)
    (h : s.last_query = some q) (he : q.isEmpty = false) (hm : ¬ m ≤ s.retry_count) :
    handle_return env m (some s) =
      (some (process_user_query env { s with retry_count := s.retry_count + 1 }
          (refine_query env q s.context) true).session, .answered,
        1 + (process_user_query env { s with retry_count := s.retry_count + 1 }
          (refine_query env q s.context) true).ai_calls) := by
  simp [handle_return, h, he, hm]

/-- Both session invariants the claims need: the retry counter never
exceeds the configured maximum and the context window never exceeds 5
entries, over every reachable session state. -/
theorem reachable_invariant (m : Nat) (s : Session) (h : Reachable m s) :
    s.retry_count ≤ m ∧ s.context.length ≤ 5 := by
  induction h with
  | start => exact ⟨Nat.zero_le m, by simp [initial_session]⟩
  | text_step env s t s' n h hs ih =>
    by_cases he : (pyStrip t).isEmpty = true
    · unfold handle_text at hs
      rw [if_pos he] at hs
      obtain ⟨h1, -⟩ := Prod.mk.injEq .. ▸ hs
      cases h1
      exact ih
    · obtain ⟨e, s'', -, hstep, hr, -, hc⟩ :=
        handle_text_context env s t (Bool.not_eq_true _ ▸ he)
      rw [hstep] at hs
      obtain ⟨h1, -⟩ := Prod.mk.injEq .. ▸ hs
      obtain rfl : s'' = s' := Option.some.inj h1
      refine ⟨hr ▸ Nat.zero_le m, ?_⟩
      rw [hc]
      exact trim_context_length _
  | return_step env s s' o n h hs ih =>
    cases hq : s.last_query with
    | none =>
      rw [handle_return_no_query env m s hq] at hs
      obtain ⟨h1, -⟩ := Prod.mk.injEq .. ▸ hs
      cases Option.some.inj h1
      exact ih
    | some q =>
      by_cases he : q.isEmpty = true
      · rw [handle_return_empty_query env m s q hq he] at hs
        obtain ⟨h1, -⟩ := Prod.mk.injEq .. ▸ hs
        cases Option.some.inj h1
        exact ih
      · by_cases hm : m ≤ s.retry_count
        · rw [handle_return_maxed env m s q hq (Bool.not_eq_true _ ▸ he) hm] at hs
          obtain ⟨h1, -⟩ := Prod.mk.injEq .. ▸ hs
          cases Option.some.inj h1
          exact ih
        · rw [handle_return_go env m s q hq (Bool.not_eq_true _ ▸ he) hm] at hs
          obtain ⟨h1, -⟩ := Prod.mk.injEq .. ▸ hs
          cases Option.some.inj h1
          constructor
          · rw [process_user_query_retry]
            dsimp only
            omega
          · obtain ⟨e, -, -, hsess⟩ := process_user_query_entry env
              { s with retry_count := s.retry_count + 1 }
              (refine_query env q s.context) true
            rw [hsess]
            exact trim_context_length _


/-- The spec's worked example: starting from a fresh session, seven
sequential non-empty queries leave the context holding exactly the entries
of queries 3-7, in order. -/
theorem seven_queries (env : BotEnv) :
    ∃ s' : Session,
      run_texts env (some initial_session)
          ["q1", "q2", "q3", "q4", "q5", "q6", "q7"] = some s' ∧
      s'.context.map CtxEntry.query = ["q3", "q4", "q5", "q6", "q7"] ∧
      s'.context.length = 5 := by
  obtain ⟨e1, s1, he1, hs1, -, -, hc1⟩ :=
    handle_text_context env initial_session "q1" (by decide)
  have hc1' : s1.context = [e1] := by
    rw [hc1]; simp [initial_session, trim_context]
  obtain ⟨e2, s2, he2, hs2, -, -, hc2⟩ := handle_text_context env s1 "q2" (by decide)
  have hc2' : s2.context = [e1, e2] := by rw [hc2, hc1']; simp [trim_context]
  obtain ⟨e3, s3, he3, hs3, -, -, hc3⟩ := handle_text_context env s2 "q3" (by decide)
  have hc3' : s3.context = [e1, e2, e3] := by rw [hc3, hc2']; simp [trim_context]
  obtain ⟨e4, s4, he4, hs4, -, -, hc4⟩ := handle_text_context env s3 "q4" (by decide)
  have hc4' : s4.context = [e1, e2, e3, e4] := by rw [hc4, hc3']; simp [trim_context]
  obtain ⟨e5, s5, he5, hs5, -, -, hc5⟩ := handle_text_context env s4 "q5" (by decide)
  have hc5' : s5.context = [e1, e2, e3, e4, e5] := by
    rw [hc5, hc4']; simp [trim_context]
  obtain ⟨e6, s6, he6, hs6, -, -, hc6⟩ := handle_text_context env s5 "q6" (by decide)
  have hc6' : s6.context = [e2, e3, e4, e5, e6] := by
    rw [hc6, hc5']; simp [trim_context]
  obtain ⟨e7, s7, he7, hs7, -, -, hc7⟩ := handle_text_context env s6 "q7" (by decide)
  have hc7' : s7.context = [e3, e4, e5, e6, e7] := by
    rw [hc7, hc6']; simp [trim_context]
  refine ⟨s7, ?_, ?_, ?_⟩
  · simp only [run_texts, hs1, hs2, hs3, hs4, hs5, hs6, hs7]
  · rw [hc7']
    simp only [List.map_cons, List.map_nil, he3, he4, he5, he6, he7]
    decide
  · rw [hc7']
    rfl

/-! ## Theorems: processor helper lemmas -/

theorem improve_text_with_ai_failure (gen : String → Option String)
    (text page_title : String)
    (h : gen (improve_prompt page_title (pyTake text 2000)) = none) :
    improve_text_with_ai gen text page_title = text := by
  unfold improve_text_with_ai
  split
  · rfl
  · rw [h]

theorem process_page_data_error (gen : String → Option String)
    (splitter : String → List String) (p : PageRecord) (h : p.error.isSome = true) :
    process_page_data gen splitter p = p := by
  unfold process_page_data
  rw [if_pos h]

theorem page_chunks_unprocessed (p : PageRecord) (h : p.processed = false) :
    page_chunks p = [] := by
  unfold page_chunks
  rw [h]


theorem scrape_run_sound (g : String → List String → List String) (m : Nat) :
    ∀ (fuel : Nat) (fr v s l : List String) (st : CrawlState),
      scrape_run g m fuel fr v s l = some st → scrape_website g m fr v s l = st := by
  intro fuel
  induction fuel with
  | zero => intro fr v s l st h; exact absurd h (by simp [scrape_run])
  | succ fuel ih =>
    intro fr v s l st h
    match fr with
    | [] =>
      rw [scrape_nil]
      simpa [scrape_run] using h
    | u :: rest =>
      by_cases hm : s.length < m
      · by_cases hv : u ∈ v
        · rw [scrape_skip g m u rest v s l hm hv]
          exact ih rest v s l st (by simpa [scrape_run, hm, hv] using h)
        · rw [scrape_visit g m u rest v s l hm hv]
          refine ih _ _ _ _ st ?_
          simpa [scrape_run, hm, hv] using h
      · rw [scrape_stop g m u rest v s l hm]
        simpa [scrape_run, hm] using h


theorem process_all_data_cons (gen : String → Option String)
    (splitter : String → List String) (fail : PageRecord → Option String)
    (p : PageRecord) (ps : List PageRecord) :
    process_all_data gen splitter fail (p :: ps) =
      (match fail p with
        | none => process_page_data gen splitter p
        | some e => { p with processing_error := some e }) ::
        process_all_data gen splitter fail ps := rfl

theorem extract_all_chunks_cons (p : PageRecord) (ps : List PageRecord) :
    extract_all_chunks (p :: ps) = page_chunks p ++ extract_all_chunks ps := rfl

/-- Dropping the fetch-error pages and the pages whose processing raises
from the input changes nothing in the extracted chunks: such pages
contribute zero chunk records. -/
theorem extract_skips_failed (gen : String → Option String)
    (splitter : String → List String) (fail : PageRecord → Option String) :
    ∀ pages : List PageRecord, (∀ p ∈ pages, p.processed = false) →
      extract_all_chunks (process_all_data gen splitter fail pages) =
        extract_all_chunks (process_all_data gen splitter fail
          (pages.filter (fun p => !p.error.isSome && !(fail p).isSome))) := by
  intro pages
  induction pages with
  | nil => intro _; rfl
  | cons p ps ih =>
    intro hraw
    have hp : p.processed = false := hraw p (List.mem_cons_self _ _)
    have ihs := ih (fun q hq => hraw q (List.mem_cons_of_mem _ hq))
    rw [List.filter_cons]
    cases hf : fail p with
    | some e =>
      rw [process_all_data_cons, extract_all_chunks_cons, hf]
      rw [page_chunks_unprocessed { p with processing_error := some e } hp]
      rw [if_neg (by simp)]
      simpa using ihs
    | none =>
      by_cases he : p.error.isSome = true
      · rw [process_all_data_cons, extract_all_chunks_cons, hf]
        rw [process_page_data_error gen splitter p he, page_chunks_unprocessed p hp]
        rw [if_neg (by simp [he])]
        simpa using ihs
      · have he' : p.error.isSome = false := Bool.not_eq_true _ ▸ he
        rw [if_pos (by simp [he'])]
        rw [process_all_data_cons, process_all_data_cons, extract_all_chunks_cons,
          extract_all_chunks_cons, ihs, hf]

theorem process_all_data_singleton_failed (gen : String → Option String)
    (splitter : String → List String) (fail : PageRecord → Option String)
    (p : PageRecord) (e : String) (hf : fail p = some e) :
    process_all_data gen splitter fail [p] = [{ p with processing_error := some e }] := by
  rw [process_all_data_cons, hf]
  rfl

/-- Concrete evaluation of the crawl of the one-page site whose seed links
to `evilUrl`: both URLs end up enqueued. -/
theorem evil_crawl_log :
    (run_scraper (page_links absUrljoin evilAnchors) 2 seedUrl).log
      = [seedUrl, evilUrl] := by
  rw [run_scraper, scrape_run_sound (page_links absUrljoin evilAnchors) 2 10
    [seedUrl] [] [] [seedUrl]
    ⟨[], [seedUrl, evilUrl], [seedUrl, evilUrl], [seedUrl, evilUrl]⟩ (by decide)]


/-! ## Claim theorems -/

/-- C1 (counterexample to the claim as stated): with one prior entry in the
store and one fresh non-empty chunk, a `collection.add` failure after the
successful clear makes `build_knowledge_base` fail while the store is left
empty — the prior content is not left untouched and the new content is not
fully in place either, so the rebuild is not atomic. -/
theorem build_knowledge_base_atomicity_counterexample :
    (build_knowledge_base addAlwaysFailsEnv [newChunk] oldState).2.isSome = true ∧
    (build_knowledge_base addAlwaysFailsEnv [newChunk] oldState).1 ≠ oldState ∧
    (build_knowledge_base addAlwaysFailsEnv [newChunk] oldState).1.collection
      ≠ some (keptDocs [newChunk]) := by
  have h : build_knowledge_base addAlwaysFailsEnv [newChunk] oldState
      = (⟨some []⟩, some "add failed") := by
    have hf := addBatches_fail addAlwaysFailsEnv (keptDocs [newChunk]) 0 []
      (by decide) rfl
    calc build_knowledge_base addAlwaysFailsEnv [newChunk] oldState
        = addBatches addAlwaysFailsEnv (keptDocs [newChunk]) 0 ⟨some []⟩ := rfl
      _ = (⟨some []⟩, some "add failed") := hf
  rw [h]
  exact ⟨rfl, by decide, by decide⟩

/-- C1 (amended): `build_knowledge_base` clears and then repopulates.  When
every backend call succeeds it fully replaces the prior content with the
new (non-blank) chunks.  Under failure it is not atomic: after a successful
clear, a failing insertion leaves the store holding exactly some
whole-batch prefix of the new rows, the prior content being already lost;
and when the initial delete fails (its exception is swallowed), the new
chunks are appended to the untouched old contents instead of replacing
them. -/
theorem build_knowledge_base_failure_semantics (env : DBEnv)
    (chunks : List ChunkRecord) (st : ChromaState) :
    (NoFailures env →
      build_knowledge_base env chunks st = (⟨some (keptDocs chunks)⟩, none)) ∧
    (env.deleteFails = false → env.createFails = false →
      ∃ n, (build_knowledge_base env chunks st).1 = ⟨some ((keptDocs chunks).take n)⟩) ∧
    (env.deleteFails = true → (∀ j, env.addFails j = false) →
      ∀ es, st.collection = some es →
        build_knowledge_base env chunks st = (⟨some (es ++ keptDocs chunks)⟩, none)) := by
  refine ⟨?_, ?_, ?_⟩
  · rintro ⟨hd, hc, ha⟩
    have hclear : clear_collection env st = ⟨some []⟩ := by
      simp [clear_collection, hd, hc]
    unfold build_knowledge_base
    rw [hclear]
    unfold add_chunks
    by_cases hch : chunks = []
    · subst hch
      simp [keptDocs]
    · rw [if_neg hch]
      dsimp only
      by_cases hkd : keptDocs chunks = []
      · rw [if_pos hkd, hkd]
      · rw [if_neg hkd, addBatches_ok env ha (keptDocs chunks) 0 []]
        simp
  · intro hd hc
    have hclear : clear_collection env st = ⟨some []⟩ := by
      simp [clear_collection, hd, hc]
    unfold build_knowledge_base
    rw [hclear]
    unfold add_chunks
    by_cases hch : chunks = []
    · subst hch
      exact ⟨0, by simp [keptDocs]⟩
    · rw [if_neg hch]
      dsimp only
      by_cases hkd : keptDocs chunks = []
      · rw [if_pos hkd, hkd]
        exact ⟨0, rfl⟩
      · rw [if_neg hkd]
        obtain ⟨n, hn⟩ := addBatches_front env (keptDocs chunks) 0 []
        rw [List.nil_append] at hn
        refine ⟨n, ?_⟩
        calc (addBatches env (keptDocs chunks) 0 ⟨some []⟩).1
            = ⟨(addBatches env (keptDocs chunks) 0 ⟨some []⟩).1.collection⟩ := rfl
          _ = ⟨some ((keptDocs chunks).take n)⟩ := by rw [hn]
  · intro hd ha es hst
    have hclear : clear_collection env st = st := by simp [clear_collection, hd]
    have hste : st = ⟨some es⟩ := by
      calc st = ⟨st.collection⟩ := rfl
        _ = ⟨some es⟩ := by rw [hst]
    unfold build_knowledge_base
    rw [hclear, hste]
    unfold add_chunks
    by_cases hch : chunks = []
    · subst hch
      simp [keptDocs]
    · rw [if_neg hch]
      dsimp only
      by_cases hkd : keptDocs chunks = []
      · rw [if_pos hkd, hkd]
        simp
      · rw [if_neg hkd, addBatches_ok env ha (keptDocs chunks) 0 es]

/-- C1 witness: a failure-free rebuild at concrete inputs fully replaces
the old store content. -/
theorem build_knowledge_base_failure_semantics_witness :
    build_knowledge_base ⟨false, false, fun _ => false⟩ [newChunk] oldState
      = (⟨some (keptDocs [newChunk])⟩, none) :=
  (build_knowledge_base_failure_semantics ⟨false, false, fun _ => false⟩
    [newChunk] oldState).1 ⟨rfl, rfl, fun _ => rfl⟩

/-- C2: for every page graph `g` (cycles included), a crawl run collects a
duplicate-free set of pages, at most `m` of them, never enqueues the same
URL twice (the full enqueue log is duplicate-free), never removes anything
from the visited set, and a popped URL that is already visited is skipped
without touching the collected pages (so it never counts against `m`). -/
theorem crawler_visits_once_and_bounded
    (g : String → List String → List String) (m : Nat) (seed : String) :
    (run_scraper g m seed).scraped.Nodup ∧
    (run_scraper g m seed).scraped.length ≤ m ∧
    (run_scraper g m seed).log.Nodup ∧
    (∀ fr v s l : List String, v ⊆ (scrape_website g m fr v s l).visited) ∧
    (∀ (u : String) (rest v s l : List String), u ∈ v → s.length < m →
      scrape_website g m (u :: rest) v s l = scrape_website g m rest v s l) := by
  have hinv := run_scraper_inv g m seed
  exact ⟨hinv.2.2.1, scrape_website_scraped_le g m [seed] [] [] [seed] (by simp),
    hinv.1, fun fr v s l => scrape_website_visited_mono g m fr v s l,
    fun u rest v s l hv hm => scrape_skip g m u rest v s l hm hv⟩

/-- C2 witness at a concrete graph and state. -/
theorem crawler_visits_once_and_bounded_witness :
    (run_scraper (fun _ _ => []) 1 seedUrl).scraped.Nodup ∧
    scrape_website (fun _ _ => []) 1 [seedUrl] [seedUrl] [] [seedUrl]
      = scrape_website (fun _ _ => []) 1 [] [seedUrl] [] [seedUrl] := by
  have h := crawler_visits_once_and_bounded (fun _ _ => []) 1 seedUrl
  exact ⟨h.1, h.2.2.2.2 seedUrl [] [seedUrl] [] [seedUrl] (by decide) (by decide)⟩

/-- C3 (counterexample to the claim as stated): the crawler enqueues
`evilUrl`, whose host `iitu.edu.kz.evil.com` contains `iitu.edu.kz` as a
substring but does not match the configured domain (it is neither
`iitu.edu.kz` nor one of its subdomains). -/
theorem crawler_domain_counterexample :
    evilUrl ∈ (run_scraper (page_links absUrljoin evilAnchors) 2 seedUrl).log ∧
    is_valid_url evilUrl = true ∧
    netloc evilUrl = "iitu.edu.kz.evil.com" ∧
    domain_matches_spec "iitu.edu.kz" evilUrl = false := by
  refine ⟨?_, by decide, by decide, by decide⟩
  rw [evil_crawl_log]
  decide

/-- C3 (amended): every URL the crawler ever enqueues, other than the seed,
passed the code's check `is_valid_url` — the URL is resolved against the
current page with `urljoin` and kept only if its host contains the
hardcoded substring `iitu.edu.kz` (the configured base URL is not
consulted, and substring containment lets foreign hosts through) — and no URL is
enqueued if it is already queued or already visited, the enqueue log being
duplicate-free. -/
theorem crawler_enqueue_filter (urljoin : String → String → String)
    (anchors : String → List String) (m : Nat) (seed : String) :
    (∀ u ∈ (run_scraper (page_links urljoin anchors) m seed).log,
        u = seed ∨ is_valid_url u = true) ∧
    (run_scraper (page_links urljoin anchors) m seed).log.Nodup := by
  constructor
  · refine scrape_website_log_pred _ m (fun u => u = seed ∨ is_valid_url u = true)
      ?_ _ _ _ _ ?_
    · intro url vis x hx
      right
      unfold page_links extract_links at hx
      have hmem := List.of_mem_filter hx
      rw [Bool.and_eq_true] at hmem
      exact hmem.1
    · intro x hx
      left
      simpa using hx
  · exact (run_scraper_inv _ m seed).1

/-- C3 witness: on the concrete one-page site, the enqueued non-seed URL
indeed passed `is_valid_url`. -/
theorem crawler_enqueue_filter_witness : is_valid_url evilUrl = true := by
  have h := (crawler_enqueue_filter absUrljoin evilAnchors 2 seedUrl).1 evilUrl
    (by rw [evil_crawl_log]; decide)
  rcases h with h | h
  · exact absurd h (by decide)
  · exact h

/-- C4: the Retrieval Gate takes the RAG path exactly when `search(query,5)`
is non-empty and `is_relevant(query)` holds at the default threshold, and
the generic path otherwise; with an empty knowledge store (the backend
returns no rows) every query takes the generic path. -/
theorem retrieval_gate (env : BotEnv) (s : Session) (q : String) (b : Bool) :
    ((process_user_query env s q b).source = "rag" ↔
      (search env.backend q 5 ≠ [] ∧
        is_relevant env.backend q is_relevant_default_threshold = true)) ∧
    ((process_user_query env s q b).source = "general" ↔
      ¬(search env.backend q 5 ≠ [] ∧
        is_relevant env.backend q is_relevant_default_threshold = true)) ∧
    (∀ gen : String → Option String,
      (process_user_query ⟨fun _ _ => some [], gen⟩ s q b).source = "general") := by
  refine ⟨process_user_query_source_rag_iff env s q b, ?_, ?_⟩
  · constructor
    · intro hg hc
      have hr := (process_user_query_source_rag_iff env s q b).2 hc
      rw [hg] at hr
      exact absurd hr (by decide)
    · intro hc
      rcases process_user_query_source_general env s q b with h | h
      · exact absurd ((process_user_query_source_rag_iff env s q b).1 h) hc
      · exact h
  · intro gen
    rcases process_user_query_source_general ⟨fun _ _ => some [], gen⟩ s q b with h | h
    · have := (process_user_query_source_rag_iff ⟨fun _ _ => some [], gen⟩ s q b).1 h
      exact absurd rfl this.1
    · exact h

/-- C5: `is_relevant` holds exactly when the single-hit search returns a
top hit whose similarity `1 - distance` reaches the threshold; whenever the
search returns nothing — in particular when the backend itself fails — it
is `false` for every threshold; and the default threshold is `0.5`. -/
theorem is_relevant_spec (backend : String → Nat → Option (List SearchResult))
    (q : String) (threshold : ℚ) :
    (is_relevant backend q threshold = true ↔
      ∃ (r : SearchResult) (rest : List SearchResult),
        search backend q 1 = r :: rest ∧ threshold ≤ 1 - r.distance) ∧
    (search backend q 1 = [] → is_relevant backend q threshold = false) ∧
    (backend q 1 = none → is_relevant backend q threshold = false) ∧
    is_relevant_default_threshold = 1 / 2 := by
  refine ⟨⟨?_, ?_⟩, ?_, ?_, rfl⟩
  · intro h
    unfold is_relevant at h
    cases hs : search backend q 1 with
    | nil => rw [hs] at h; exact absurd h (by simp)
    | cons r rest =>
      rw [hs] at h
      exact ⟨r, rest, rfl, of_decide_eq_true h⟩
  · rintro ⟨r, rest, hs, hle⟩
    unfold is_relevant
    rw [hs]
    exact decide_eq_true hle
  · intro hs
    unfold is_relevant
    rw [hs]
  · intro hb
    have hs : search backend q 1 = [] := by unfold search; rw [hb]
    unfold is_relevant
    rw [hs]

/-- C5 witness: a failing backend makes `is_relevant` false. -/
theorem is_relevant_spec_witness :
    is_relevant (fun _ _ => none) "Что такое IITU" (1 / 2) = false :=
  (is_relevant_spec (fun _ _ => none) "Что такое IITU" (1 / 2)).2.2.1 rfl

/-- C6: when a session's retry counter has reached the configured maximum
(and a refinement base exists), a further `/return` is rejected with the
terminal outcome, the session is returned unchanged and no
completion-service call is made; and over all reachable session states the
retry counter never exceeds the maximum. -/
theorem refinement_budget_enforced (env : BotEnv) (m : Nat) (s : Session) :
    (∀ q : String, s.last_query = some q → q.isEmpty = false →
      m ≤ s.retry_count →
      handle_return env m (some s) = (some s, .max_retries_reached, 0)) ∧
    (Reachable m s → s.retry_count ≤ m) :=
  ⟨fun q hq he hm => handle_return_maxed env m s q hq he hm,
    fun h => (reachable_invariant m s h).1⟩

/-- C6 witness: a saturated concrete session is rejected unchanged, and the
fresh session respects the bound. -/
theorem refinement_budget_enforced_witness :
    handle_return ⟨fun _ _ => some [], fun _ => none⟩ 3 (some ⟨3, some "q", []⟩)
      = (some ⟨3, some "q", []⟩, .max_retries_reached, 0) ∧
    initial_session.retry_count ≤ 3 := by
  have h := refinement_budget_enforced ⟨fun _ _ => some [], fun _ => none⟩ 3
    ⟨3, some "q", []⟩
  have h2 := refinement_budget_enforced ⟨fun _ _ => some [], fun _ => none⟩ 3
    initial_session
  exact ⟨h.1 "q" rfl rfl (by decide), h2.2 Reachable.start⟩

/-- C7: every reachable session's context window holds at most 5 entries;
each processed query appends one record carrying that query and keeps only
the at-most-5 most recent entries (the oldest are dropped from the front,
FIFO); and after the 7 sequential queries `q1`..`q7` from a fresh session
the window holds exactly the entries of queries 3-7, in order. -/
theorem context_window_fifo (m : Nat) :
    (∀ s : Session, Reachable m s → s.context.length ≤ 5) ∧
    (∀ (env : BotEnv) (s : Session) (q : String) (b : Bool),
      ∃ e : CtxEntry, e.query = q ∧
        (process_user_query env s q b).session.context =
          (s.context ++ [e]).drop ((s.context ++ [e]).length - 5)) ∧
    (∀ env : BotEnv, ∃ s' : Session,
      run_texts env (some initial_session)
          ["q1", "q2", "q3", "q4", "q5", "q6", "q7"] = some s' ∧
      s'.context.map CtxEntry.query = ["q3", "q4", "q5", "q6", "q7"] ∧
      s'.context.length = 5) := by
  refine ⟨fun s h => (reachable_invariant m s h).2, ?_, seven_queries⟩
  intro env s q b
  obtain ⟨e, heq, -, hsess⟩ := process_user_query_entry env s q b
  refine ⟨e, heq, ?_⟩
  rw [hsess]
  exact trim_context_eq_drop _

/-- C7 witness: the window bound at the fresh session. -/
theorem context_window_fifo_witness : initial_session.context.length ≤ 5 :=
  (context_window_fifo 3).1 initial_session Reachable.start

/-- C8: whenever the completion service fails on the enhancement prompt
(built from the truncated text), the Text Enhancer returns the raw text
unchanged; as a total function it propagates no failure to its caller. -/
theorem enhancer_returns_raw_on_failure (gen : String → Option String)
    (text page_title : String)
    (h : gen (improve_prompt page_title (pyTake text 2000)) = none) :
    improve_text_with_ai gen text page_title = text :=
  improve_text_with_ai_failure gen text page_title h

/-- C8 witness: a failing service at a concrete text. -/
theorem enhancer_returns_raw_on_failure_witness :
    improve_text_with_ai (fun _ => none) "raw page text" "Title" = "raw page text" :=
  enhancer_returns_raw_on_failure (fun _ => none) "raw page text" "Title" rfl

/-- C9: answering never writes the refinement state: `process_user_query`
leaves `retry_count` and `last_query` untouched for fresh and refined
queries alike, and a `/return` never changes `last_query` — so every
refinement keeps refining the query of the user's last fresh message and a
refined query never becomes the new refinement base. -/
theorem answer_frame_preserves_refinement_state (env : BotEnv) (m : Nat)
    (s s₀ : Session) (q : String) (b : Bool) :
    (process_user_query env s q b).session.retry_count = s.retry_count ∧
    (process_user_query env s q b).session.last_query = s.last_query ∧
    (∀ (s' : Session) (o : ReturnOutcome) (n : Nat),
      handle_return env m (some s₀) = (some s', o, n) →
        s'.last_query = s₀.last_query) := by
  refine ⟨process_user_query_retry env s q b, process_user_query_last env s q b, ?_⟩
  intro s' o n h
  cases hq : s₀.last_query with
  | none =>
    rw [handle_return_no_query env m s₀ hq] at h
    obtain ⟨h1, -⟩ := Prod.mk.injEq .. ▸ h
    cases Option.some.inj h1
    exact hq
  | some q' =>
    by_cases he : q'.isEmpty = true
    · rw [handle_return_empty_query env m s₀ q' hq he] at h
      obtain ⟨h1, -⟩ := Prod.mk.injEq .. ▸ h
      cases Option.some.inj h1
      exact hq
    · by_cases hm2 : m ≤ s₀.retry_count
      · rw [handle_return_maxed env m s₀ q' hq (Bool.not_eq_true _ ▸ he) hm2] at h
        obtain ⟨h1, -⟩ := Prod.mk.injEq .. ▸ h
        cases Option.some.inj h1
        exact hq
      · rw [handle_return_go env m s₀ q' hq (Bool.not_eq_true _ ▸ he) hm2] at h
        obtain ⟨h1, -⟩ := Prod.mk.injEq .. ▸ h
        cases Option.some.inj h1
        rw [process_user_query_last]
        exact hq

/-- C9 witness at a concrete session and environment. -/
theorem answer_frame_preserves_refinement_state_witness :
    (process_user_query ⟨fun _ _ => some [], fun _ => none⟩
        ⟨3, some "q", []⟩ "x" false).session.retry_count = 3 ∧
    (⟨3, some "q", []⟩ : Session).last_query = (⟨3, some "q", []⟩ : Session).last_query := by
  have h := answer_frame_preserves_refinement_state
    ⟨fun _ _ => some [], fun _ => none⟩ 3 ⟨3, some "q", []⟩ ⟨3, some "q", []⟩ "x" false
  exact ⟨h.1, h.2.2 ⟨3, some "q", []⟩ ReturnOutcome.max_retries_reached 0 (by decide)⟩

/-- C10: a fetch-error page is returned verbatim by `process_page_data`
(never enhanced, chunked or marked processed) and, being unprocessed,
yields no chunk records; a page whose processing raises is passed on with
only a `processing_error` field added and also yields no chunk records; and
dropping all such pages from the input leaves the extracted chunk list
unchanged — they contribute zero `ChunkRecord`s. -/
theorem failed_pages_contribute_no_chunks (gen : String → Option String)
    (splitter : String → List String) (fail : PageRecord → Option String)
    (pages : List PageRecord) (p : PageRecord) (e : String) :
    (p.error.isSome = true → process_page_data gen splitter p = p) ∧
    (p.error.isSome = true → p.processed = false →
      page_chunks (process_page_data gen splitter p) = []) ∧
    (fail p = some e →
      process_all_data gen splitter fail [p] = [{ p with processing_error := some e }] ∧
      (p.processed = false → page_chunks { p with processing_error := some e } = [])) ∧
    ((∀ q ∈ pages, q.processed = false) →
      extract_all_chunks (process_all_data gen splitter fail pages) =
        extract_all_chunks (process_all_data gen splitter fail
          (pages.filter (fun q => !q.error.isSome && !(fail q).isSome)))) := by
  refine ⟨process_page_data_error gen splitter p, ?_, ?_, extract_skips_failed gen splitter fail pages⟩
  · intro he hp
    rw [process_page_data_error gen splitter p he]
    exact page_chunks_unprocessed p hp
  · intro hf
    exact ⟨process_all_data_singleton_failed gen splitter fail p e hf,
      fun hp => page_chunks_unprocessed _ hp⟩

/-- C10 witness: a concrete fetch-error page passes through verbatim and
contributes nothing. -/
theorem failed_pages_contribute_no_chunks_witness :
    process_page_data (fun _ => none) (fun t => [t]) errPage = errPage ∧
    page_chunks (process_page_data (fun _ => none) (fun t => [t]) errPage) = [] ∧
    extract_all_chunks (process_all_data (fun _ => none) (fun t => [t])
        (fun _ => none) [errPage]) =
      extract_all_chunks (process_all_data (fun _ => none) (fun t => [t])
        (fun _ => none)
        ([errPage].filter (fun q => !q.error.isSome && !((fun _ => none : PageRecord → Option String) q).isSome))) := by
  have h := failed_pages_contribute_no_chunks (fun _ => none) (fun t => [t])
    (fun _ => none) [errPage] errPage "e"
  exact ⟨h.1 rfl, h.2.1 rfl rfl, h.2.2.2 (by decide)⟩

end IITU
